import Mathlib

/-!
Verification of the Intcode virtual machines of the aoc2019 repository.

Each puzzle generation of the machine is embedded in its own namespace,
translated from the corresponding `src/aoc_2019_NN/src/main.rs`:

* `Day02`  — the Add/Mul/Halt machine of `aoc_2019_02` (`Memory`);
* `Day05`  — the strict machine with parameter modes, input queue and
  output vector of `aoc_2019_05` (`IntCode`);
* `Day07`  — the tick-based strict machine with iterator input and
  output buffer of `aoc_2019_07` (`IntCode`), plus the amplifier
  pipeline topologies `run_amps` / `run_amps_part2`;
* `Day11`  — the lenient machine of `aoc_2019_11` (relative base,
  zero-fill reads, growing writes).

Modelling conventions:
* Rust `Vec<iN>` memory is a `List Int`; machine words are unbounded
  `Int` (the claims under verification involve no arithmetic overflow);
  the `u32` memory of Day02 is `Nat` with wrapping arithmetic `% 2^32`.
* `as usize` casts follow Rust semantics exactly: two's-complement
  value reduced modulo `2^64` (`usizeCast`).
* Loops (`run`, `run_to_termination`, `run_to_next_output`, iterator
  pulls) take an explicit fuel argument; fuel exhaustion is a `none` of
  an outer `Option` (or a distinguished error), never confused with a
  result of the program.
* Rust `panic!` sites are modelled as distinguished error values, so
  that their (un)reachability can be stated.
-/

/-- Rust `as usize` on a signed integer: two's-complement reduction modulo 2^64. -/
def usizeCast (v : Int) : Nat := (v % (2 ^ 64 : Int)).toNat

namespace Day02

/-- Decoded instruction of the `aoc_2019_02` machine (`enum Instruction`):
operands are already `usize` addresses. -/
inductive Instr where
  | add (l r t : Nat)
  | mul (l r t : Nat)
  | halt
deriving DecidableEq, Repr

/-- `Memory::read_instruction` of `aoc_2019_02`: reads the opcode at the
address pointer, advances it by 4 for Add/Mul (reading the three operand
words), leaves it otherwise.  Returns the final address pointer together
with the decode result.  u32 memory cells are modelled as `Nat`. -/
def read_instruction (mem : List Nat) (ptr : Nat) : Nat × Except String Instr :=
  match mem.get? ptr with
  | none => (ptr, .error "Invalid Address")
  | some w =>
    if w = 1 then
      let p := ptr + 4
      match mem.get? (p - 3) with
      | none => (p, .error "Invalid Address")
      | some l =>
        match mem.get? (p - 2) with
        | none => (p, .error "Invalid Address")
        | some r =>
          match mem.get? (p - 1) with
          | none => (p, .error "Invalid Address")
          | some t => (p, .ok (.add l r t))
    else if w = 2 then
      let p := ptr + 4
      match mem.get? (p - 3) with
      | none => (p, .error "Invalid Address")
      | some l =>
        match mem.get? (p - 2) with
        | none => (p, .error "Invalid Address")
        | some r =>
          match mem.get? (p - 1) with
          | none => (p, .error "Invalid Address")
          | some t => (p, .ok (.mul l r t))
    else if w = 99 then (ptr, .ok .halt)
    else (ptr, .error "Invalid Opcode")

/-- `Memory::run` of `aoc_2019_02`: repeatedly decode and execute until
`Terminate` returns the memory or an error aborts the run.  `u32`
addition/multiplication wraps modulo `2^32`.  The outer `Option` is the
fuel bound: `none` means the fuel was exhausted before the loop ended. -/
def run : Nat → List Nat → Nat → Option (Except String (List Nat))
  | 0, _, _ => none
  | fuel+1, mem, ptr =>
    match read_instruction mem ptr with
    | (_, .error e) => some (.error e)
    | (q, .ok (.add l r t)) =>
      match mem.get? l with
      | none => some (.error "Invalid address reference")
      | some x =>
        match mem.get? r with
        | none => some (.error "Invalid address reference")
        | some y =>
          if t < mem.length then run fuel (mem.set t ((x + y) % 2 ^ 32)) q
          else some (.error "Invalid address reference")
    | (q, .ok (.mul l r t)) =>
      match mem.get? l with
      | none => some (.error "Invalid address reference")
      | some x =>
        match mem.get? r with
        | none => some (.error "Invalid address reference")
        | some y =>
          if t < mem.length then run fuel (mem.set t ((x * y) % 2 ^ 32)) q
          else some (.error "Invalid address reference")
    | (_, .ok .halt) => some (.ok mem)

/-- Spec-side definition, written from the specification's words (section 8,
"run-to-halt must leave memory exactly equal to evaluating the arithmetic by
hand"): at the current position read the opcode; on 1 fetch the two source
addresses and the target address, add the two referenced cells (u32 wrap) and
store at the target; on 2 likewise with the product; on 99 stop with the
current memory.  A program not evaluable by hand (missing cell, out-of-range
target, unknown opcode, or needing more than `fuel` steps) yields `none`.
To be compared with `Day02.run`, the machine from the source. -/
def handEval : Nat → List Nat → Nat → Option (List Nat)
  | 0, _, _ => none
  | fuel+1, mem, ip =>
    match mem.get? ip with
    | none => none
    | some w =>
      if w = 1 then
        match mem.get? (ip + 1), mem.get? (ip + 2), mem.get? (ip + 3) with
        | some l, some r, some t =>
          match mem.get? l, mem.get? r with
          | some x, some y =>
            if t < mem.length then handEval fuel (mem.set t ((x + y) % 2 ^ 32)) (ip + 4)
            else none
          | _, _ => none
        | _, _, _ => none
      else if w = 2 then
        match mem.get? (ip + 1), mem.get? (ip + 2), mem.get? (ip + 3) with
        | some l, some r, some t =>
          match mem.get? l, mem.get? r with
          | some x, some y =>
            if t < mem.length then handEval fuel (mem.set t ((x * y) % 2 ^ 32)) (ip + 4)
            else none
          | _, _ => none
        | _, _, _ => none
      else if w = 99 then some mem
      else none

end Day02

namespace Day05

/-- Parameter mode digit of an opcode word (`0` = position, `1` = immediate);
the `aoc_2019_05` machine knows no relative mode. -/
inductive PMode where
  | pos
  | imm
deriving DecidableEq, Repr

/-- `enum ParameterType` of `aoc_2019_05`: a decoded parameter is either a
memory reference (`Ref(usize)`) or a literal value (`Value(i32)`). -/
inductive Param where
  | Ref (address : Nat)
  | Value (value : Int)
deriving DecidableEq, Repr

/-- `enum Instruction` of `aoc_2019_05`. -/
inductive Instr where
  | Add (left_op right_op into : Param)
  | Mul (left_op right_op into : Param)
  | Input (into : Param)
  | Output (param : Param)
  | JumpIfTrue (cond tgt : Param)
  | JumpIfFalse (cond tgt : Param)
  | LessThan (left_op right_op into : Param)
  | Equals (left_op right_op into : Param)
  | Terminate
deriving DecidableEq, Repr

/-- The digit loop of `parse_op_code`: little-endian decimal digits of the
mode stream, each mapped to a mode (digit 2 and above is a decode fault,
reported with the original opcode word `w`).  The first argument is fuel
bounding the loop; callers pass the number itself, which always dominates
its digit count, so the fuel-exhaustion branch is unreachable. -/
def parseModesNat (w : Int) : Nat → Nat → Except String (List PMode)
  | _, 0 => .ok []
  | 0, _ => .ok []
  | fuel+1, n =>
    match n % 10 with
    | 0 =>
      match parseModesNat w fuel (n / 10) with
      | .error e => .error e
      | .ok ms => .ok (.pos :: ms)
    | 1 =>
      match parseModesNat w fuel (n / 10) with
      | .error e => .error e
      | .ok ms => .ok (.imm :: ms)
    | _ => .error ("Invalid OpCode: " ++ toString w)

/-- `IntCode::parse_op_code` of `aoc_2019_05`: split an opcode word into the
two-digit operation code (`input % 100`, then cast `as u32`) and the
little-endian list of parameter-mode digits of `input / 100` (Rust `%` and
`/` on `i32` truncate toward zero, hence `Int.tmod` / `Int.tdiv`). -/
def parse_op_code (w : Int) : Except String (Nat × List PMode) :=
  let stream := w.tdiv 100
  match (if stream > 0 then parseModesNat w stream.toNat stream.toNat else .ok []) with
  | .error e => .error e
  | .ok ms => .ok (((w.tmod 100) % (2 ^ 32 : Int)).toNat, ms)

/-- `IntCode::read_parameter` of `aoc_2019_05`, for one parameter whose mode
has already been popped from the mode queue: read the word at the address
pointer (fault if out of bounds, pointer unmoved), advance the pointer, and
interpret the word per the mode.  An immediate parameter in write position
(`is_writing`) is a fault. -/
def readParam (mem : List Int) (ptr : Nat) (mode : PMode) (is_writing : Bool) :
    Nat × Except String Param :=
  match mem.get? ptr with
  | none => (ptr, .error "Invalid Address, address pointer out of bounds when reading parameter")
  | some v =>
    match mode with
    | .pos => (ptr + 1, .ok (.Ref (usizeCast v)))
    | .imm =>
      if is_writing then
        (ptr + 1, .error "Invalid parameter type: parameter is for a write operation")
      else (ptr + 1, .ok (.Value v))

/-- Three-parameter read (two reads then one write target), threading the
address pointer; missing mode digits default to position (`unwrap_or(Ref(0))`). -/
def read3W (mem : List Int) (ptr : Nat) (ms : List PMode) (ctor : Param → Param → Param → Instr) :
    Nat × Except String Instr :=
  match readParam mem ptr (ms.getD 0 .pos) false with
  | (p, .error e) => (p, .error e)
  | (p, .ok a) =>
    match readParam mem p (ms.getD 1 .pos) false with
    | (q, .error e) => (q, .error e)
    | (q, .ok b) =>
      match readParam mem q (ms.getD 2 .pos) true with
      | (s, .error e) => (s, .error e)
      | (s, .ok c) => (s, .ok (ctor a b c))

/-- Two-read-parameter read (jump instructions), threading the address pointer. -/
def read2R (mem : List Int) (ptr : Nat) (ms : List PMode) (ctor : Param → Param → Instr) :
    Nat × Except String Instr :=
  match readParam mem ptr (ms.getD 0 .pos) false with
  | (p, .error e) => (p, .error e)
  | (p, .ok a) =>
    match readParam mem p (ms.getD 1 .pos) false with
    | (q, .error e) => (q, .error e)
    | (q, .ok b) => (q, .ok (ctor a b))

/-- One-parameter read, threading the address pointer. -/
def read1 (mem : List Int) (ptr : Nat) (ms : List PMode) (is_writing : Bool)
    (ctor : Param → Instr) : Nat × Except String Instr :=
  match readParam mem ptr (ms.getD 0 .pos) is_writing with
  | (p, .error e) => (p, .error e)
  | (p, .ok a) => (p, .ok (ctor a))

/-- `IntCode::read_instruction` of `aoc_2019_05`: read the opcode word at the
address pointer (fault if out of bounds, pointer unmoved), advance past it,
parse it, then read the operands of the selected operation.  Returns the
final address pointer together with the decode result. -/
def read_instruction (mem : List Int) (ptr : Nat) : Nat × Except String Instr :=
  match mem.get? ptr with
  | none => (ptr, .error "Invalid Address, address pointer out of bounds when reading instruction")
  | some w =>
    let p := ptr + 1
    match parse_op_code w with
    | .error e => (p, .error e)
    | .ok (oc, ms) =>
      if oc = 1 then read3W mem p ms Instr.Add
      else if oc = 2 then read3W mem p ms Instr.Mul
      else if oc = 3 then read1 mem p ms true Instr.Input
      else if oc = 4 then read1 mem p ms false Instr.Output
      else if oc = 5 then read2R mem p ms Instr.JumpIfTrue
      else if oc = 6 then read2R mem p ms Instr.JumpIfFalse
      else if oc = 7 then read3W mem p ms Instr.LessThan
      else if oc = 8 then read3W mem p ms Instr.Equals
      else if oc = 99 then (p, .ok .Terminate)
      else (p, .error "Invalid Opcode")

/-- `IntCode::resolve_parameter_value` of `aoc_2019_05` (strict policy): a
reference outside the current memory is a fault. -/
def resolve_parameter_value (mem : List Int) (p : Param) : Except String Int :=
  match p with
  | .Ref address =>
    match mem.get? address with
    | some v => .ok v
    | none => .error ("Invalid address reference: " ++ toString address)
  | .Value v => .ok v

/-- `IntCode::write_memory` of `aoc_2019_05` (strict policy): write through a
reference, fault if it is out of bounds; a non-reference target hits the
`panic!("")`, modelled as a distinguished error. -/
def write_memory (mem : List Int) (into : Param) (v : Int) : Except String (List Int) :=
  match into with
  | .Ref address =>
    if address < mem.length then .ok (mem.set address v)
    else .error ("Invalid address reference: " ++ toString address)
  | .Value _ => .error "panic: write_memory on a non-reference target"

/-- Execution state of `IntCode::run` of `aoc_2019_05`: machine memory and
address pointer plus the run's local input queue and output vector. -/
structure S5 where
  memory : List Int
  ptr : Nat
  inputs : List Int
  outputs : List Int
deriving DecidableEq, Repr

/-- Outcome of one iteration of the `IntCode::run` loop. -/
inductive StepOut where
  | next
  | halted
  | fault (e : String)
deriving DecidableEq, Repr

/-- One iteration of the `IntCode::run` loop of `aoc_2019_05`: decode (the
address pointer advances even on a decode fault, mirroring `&mut self`),
then execute the instruction.  Memory is only modified by a successful
`write_memory`. -/
def step (s : S5) : S5 × StepOut :=
  match read_instruction s.memory s.ptr with
  | (q, .error e) => ({ s with ptr := q }, .fault e)
  | (q, .ok instr) =>
    let s := { s with ptr := q }
    match instr with
    | .Add a b c =>
      match resolve_parameter_value s.memory a with
      | .error e => (s, .fault e)
      | .ok x =>
        match resolve_parameter_value s.memory b with
        | .error e => (s, .fault e)
        | .ok y =>
          match write_memory s.memory c (x + y) with
          | .error e => (s, .fault e)
          | .ok mem' => ({ s with memory := mem' }, .next)
    | .Mul a b c =>
      match resolve_parameter_value s.memory a with
      | .error e => (s, .fault e)
      | .ok x =>
        match resolve_parameter_value s.memory b with
        | .error e => (s, .fault e)
        | .ok y =>
          match write_memory s.memory c (x * y) with
          | .error e => (s, .fault e)
          | .ok mem' => ({ s with memory := mem' }, .next)
    | .Input t =>
      match s.inputs with
      | [] => (s, .fault "Ran out of input")
      | v :: rest =>
        let s := { s with inputs := rest }
        match write_memory s.memory t v with
        | .error e => (s, .fault e)
        | .ok mem' => ({ s with memory := mem' }, .next)
    | .Output a =>
      match resolve_parameter_value s.memory a with
      | .error e => (s, .fault e)
      | .ok v => ({ s with outputs := s.outputs ++ [v] }, .next)
    | .JumpIfTrue c t =>
      match resolve_parameter_value s.memory c with
      | .error e => (s, .fault e)
      | .ok v =>
        if v ≠ 0 then
          match resolve_parameter_value s.memory t with
          | .error e => (s, .fault e)
          | .ok w => ({ s with ptr := usizeCast w }, .next)
        else (s, .next)
    | .JumpIfFalse c t =>
      match resolve_parameter_value s.memory c with
      | .error e => (s, .fault e)
      | .ok v =>
        if v = 0 then
          match resolve_parameter_value s.memory t with
          | .error e => (s, .fault e)
          | .ok w => ({ s with ptr := usizeCast w }, .next)
        else (s, .next)
    | .LessThan a b c =>
      match resolve_parameter_value s.memory a with
      | .error e => (s, .fault e)
      | .ok x =>
        match resolve_parameter_value s.memory b with
        | .error e => (s, .fault e)
        | .ok y =>
          match write_memory s.memory c (if x < y then 1 else 0) with
          | .error e => (s, .fault e)
          | .ok mem' => ({ s with memory := mem' }, .next)
    | .Equals a b c =>
      match resolve_parameter_value s.memory a with
      | .error e => (s, .fault e)
      | .ok x =>
        match resolve_parameter_value s.memory b with
        | .error e => (s, .fault e)
        | .ok y =>
          match write_memory s.memory c (if x = y then 1 else 0) with
          | .error e => (s, .fault e)
          | .ok mem' => ({ s with memory := mem' }, .next)
    | .Terminate => (s, .halted)

/-- `IntCode::run` of `aoc_2019_05` (run to halt): iterate `step` until the
`Terminate` instruction returns the final memory and output vector, or a
fault aborts the run.  `none` is fuel exhaustion. -/
def run : Nat → S5 → Option (Except String (List Int × List Int))
  | 0, _ => none
  | fuel+1, s =>
    match step s with
    | (s', .next) => run fuel s'
    | (s', .halted) => some (.ok (s'.memory, s'.outputs))
    | (_, .fault e) => some (.error e)

/-- `IntCode::init` of `aoc_2019_05` followed by `run`'s local state setup:
address pointer 0, the given input queue, empty output vector. -/
def init (mem : List Int) (inputs : List Int) : S5 :=
  ⟨mem, 0, inputs, []⟩

/-- Run-to-halt as a relation: some fuel bound suffices. -/
def RunsTo (s : S5) (r : Except String (List Int × List Int)) : Prop :=
  ∃ fuel, run fuel s = some r

end Day05

namespace Day07

/-- Parameter mode digit of an opcode word (`0` = position, `1` = immediate). -/
inductive PMode where
  | pos
  | imm
deriving DecidableEq, Repr

/-- `enum ParameterType` of `aoc_2019_07`. -/
inductive Param where
  | Ref (address : Nat)
  | Value (value : Int)
deriving DecidableEq, Repr

/-- `enum Instruction` of `aoc_2019_07`. -/
inductive Instr where
  | Add (left_op right_op into : Param)
  | Mul (left_op right_op into : Param)
  | Input (into : Param)
  | Output (param : Param)
  | JumpIfTrue (cond tgt : Param)
  | JumpIfFalse (cond tgt : Param)
  | LessThan (left_op right_op into : Param)
  | Equals (left_op right_op into : Param)
  | Terminate
deriving DecidableEq, Repr

/-- The digit loop of `parse_op_code` of `aoc_2019_07` (identical to the
`aoc_2019_05` one); fuel dominates the digit count, see `Day05.parseModesNat`. -/
def parseModesNat (w : Int) : Nat → Nat → Except String (List PMode)
  | _, 0 => .ok []
  | 0, _ => .ok []
  | fuel+1, n =>
    match n % 10 with
    | 0 =>
      match parseModesNat w fuel (n / 10) with
      | .error e => .error e
      | .ok ms => .ok (.pos :: ms)
    | 1 =>
      match parseModesNat w fuel (n / 10) with
      | .error e => .error e
      | .ok ms => .ok (.imm :: ms)
    | _ => .error ("Invalid OpCode: " ++ toString w)

/-- `IntCode::parse_op_code` of `aoc_2019_07`. -/
def parse_op_code (w : Int) : Except String (Nat × List PMode) :=
  let stream := w.tdiv 100
  match (if stream > 0 then parseModesNat w stream.toNat stream.toNat else .ok []) with
  | .error e => .error e
  | .ok ms => .ok (((w.tmod 100) % (2 ^ 32 : Int)).toNat, ms)

/-- `IntCode::read_parameter` of `aoc_2019_07` (mode already popped). -/
def readParam (mem : List Int) (ptr : Nat) (mode : PMode) (is_writing : Bool) :
    Nat × Except String Param :=
  match mem.get? ptr with
  | none => (ptr, .error "Invalid Address, address pointer out of bounds when reading parameter")
  | some v =>
    match mode with
    | .pos => (ptr + 1, .ok (.Ref (usizeCast v)))
    | .imm =>
      if is_writing then
        (ptr + 1, .error "Invalid parameter type: parameter is for a write operation")
      else (ptr + 1, .ok (.Value v))

/-- Three-parameter read (two reads then one write target). -/
def read3W (mem : List Int) (ptr : Nat) (ms : List PMode) (ctor : Param → Param → Param → Instr) :
    Nat × Except String Instr :=
  match readParam mem ptr (ms.getD 0 .pos) false with
  | (p, .error e) => (p, .error e)
  | (p, .ok a) =>
    match readParam mem p (ms.getD 1 .pos) false with
    | (q, .error e) => (q, .error e)
    | (q, .ok b) =>
      match readParam mem q (ms.getD 2 .pos) true with
      | (s, .error e) => (s, .error e)
      | (s, .ok c) => (s, .ok (ctor a b c))

/-- Two-read-parameter read (jump instructions). -/
def read2R (mem : List Int) (ptr : Nat) (ms : List PMode) (ctor : Param → Param → Instr) :
    Nat × Except String Instr :=
  match readParam mem ptr (ms.getD 0 .pos) false with
  | (p, .error e) => (p, .error e)
  | (p, .ok a) =>
    match readParam mem p (ms.getD 1 .pos) false with
    | (q, .error e) => (q, .error e)
    | (q, .ok b) => (q, .ok (ctor a b))

/-- One-parameter read. -/
def read1 (mem : List Int) (ptr : Nat) (ms : List PMode) (is_writing : Bool)
    (ctor : Param → Instr) : Nat × Except String Instr :=
  match readParam mem ptr (ms.getD 0 .pos) is_writing with
  | (p, .error e) => (p, .error e)
  | (p, .ok a) => (p, .ok (ctor a))

/-- `IntCode::read_instruction` of `aoc_2019_07`. -/
def read_instruction (mem : List Int) (ptr : Nat) : Nat × Except String Instr :=
  match mem.get? ptr with
  | none => (ptr, .error "Invalid Address, address pointer out of bounds when reading instruction")
  | some w =>
    let p := ptr + 1
    match parse_op_code w with
    | .error e => (p, .error e)
    | .ok (oc, ms) =>
      if oc = 1 then read3W mem p ms Instr.Add
      else if oc = 2 then read3W mem p ms Instr.Mul
      else if oc = 3 then read1 mem p ms true Instr.Input
      else if oc = 4 then read1 mem p ms false Instr.Output
      else if oc = 5 then read2R mem p ms Instr.JumpIfTrue
      else if oc = 6 then read2R mem p ms Instr.JumpIfFalse
      else if oc = 7 then read3W mem p ms Instr.LessThan
      else if oc = 8 then read3W mem p ms Instr.Equals
      else if oc = 99 then (p, .ok .Terminate)
      else (p, .error "Invalid Opcode")

/-- `IntCode::resolve_parameter_value` of `aoc_2019_07` (strict policy). -/
def resolve_parameter_value (mem : List Int) (p : Param) : Except String Int :=
  match p with
  | .Ref address =>
    match mem.get? address with
    | some v => .ok v
    | none => .error ("Invalid address reference: " ++ toString address)
  | .Value v => .ok v

/-- The machine-owned state of `struct IntCode` of `aoc_2019_07`, without
the input stream (which is external in composed pipelines): memory, address
pointer, output buffer (a FIFO queue) and the termination flag. -/
structure Machine where
  memory : List Int
  ptr : Nat
  outbuf : List Int
  is_terminated : Bool
deriving DecidableEq, Repr

/-- `IntCode::write_memory` of `aoc_2019_07` (strict policy); the
`panic!("")` on a non-reference target is a distinguished error. -/
def write_memory (m : Machine) (into : Param) (v : Int) : Except String Machine :=
  match into with
  | .Ref address =>
    if address < m.memory.length then .ok { m with memory := m.memory.set address v }
    else .error ("Invalid address reference: " ++ toString address)
  | .Value _ => .error "panic: write_memory on a non-reference target"

/-- Result of the input-free part of `IntCode::run_tick` of `aoc_2019_07`:
either the tick completed, or the decoded instruction was `Input` and the
machine (with the pointer already advanced past the instruction) waits for
one value from its input stream, to be written through the given target. -/
inductive TickRes where
  | done (m : Machine)
  | needInput (into : Param) (m : Machine)
deriving DecidableEq, Repr

/-- `IntCode::run_tick` of `aoc_2019_07`, factored over the input pull:
decode one instruction and execute it, except that an `Input` instruction
reports `needInput` instead of pulling (the pull is the caller's stream). -/
def tickCore (m : Machine) : Except String TickRes :=
  match read_instruction m.memory m.ptr with
  | (_, .error e) => .error e
  | (q, .ok instr) =>
    let m := { m with ptr := q }
    match instr with
    | .Add a b c =>
      match resolve_parameter_value m.memory a with
      | .error e => .error e
      | .ok x =>
        match resolve_parameter_value m.memory b with
        | .error e => .error e
        | .ok y =>
          match write_memory m c (x + y) with
          | .error e => .error e
          | .ok m' => .ok (.done m')
    | .Mul a b c =>
      match resolve_parameter_value m.memory a with
      | .error e => .error e
      | .ok x =>
        match resolve_parameter_value m.memory b with
        | .error e => .error e
        | .ok y =>
          match write_memory m c (x * y) with
          | .error e => .error e
          | .ok m' => .ok (.done m')
    | .Input t => .ok (.needInput t m)
    | .Output a =>
      match resolve_parameter_value m.memory a with
      | .error e => .error e
      | .ok v => .ok (.done { m with outbuf := m.outbuf ++ [v] })
    | .JumpIfTrue c t =>
      match resolve_parameter_value m.memory c with
      | .error e => .error e
      | .ok v =>
        if v ≠ 0 then
          match resolve_parameter_value m.memory t with
          | .error e => .error e
          | .ok w => .ok (.done { m with ptr := usizeCast w })
        else .ok (.done m)
    | .JumpIfFalse c t =>
      match resolve_parameter_value m.memory c with
      | .error e => .error e
      | .ok v =>
        if v = 0 then
          match resolve_parameter_value m.memory t with
          | .error e => .error e
          | .ok w => .ok (.done { m with ptr := usizeCast w })
        else .ok (.done m)
    | .LessThan a b c =>
      match resolve_parameter_value m.memory a with
      | .error e => .error e
      | .ok x =>
        match resolve_parameter_value m.memory b with
        | .error e => .error e
        | .ok y =>
          match write_memory m c (if x < y then 1 else 0) with
          | .error e => .error e
          | .ok m' => .ok (.done m')
    | .Equals a b c =>
      match resolve_parameter_value m.memory a with
      | .error e => .error e
      | .ok x =>
        match resolve_parameter_value m.memory b with
        | .error e => .error e
        | .ok y =>
          match write_memory m c (if x = y then 1 else 0) with
          | .error e => .error e
          | .ok m' => .ok (.done m')
    | .Terminate => .ok (.done { m with is_terminated := true })

/-- An `IntCode` instance of `aoc_2019_07` whose input stream is a fixed
finite list (the standalone form; pipelines wire the input differently). -/
structure IntCode where
  machine : Machine
  inputs : List Int
deriving DecidableEq, Repr

/-- `IntCode::run_tick` of `aoc_2019_07` with a list input stream: an
`Input` instruction pops the next value (`"Ran out of input"` when the
stream is exhausted, per `ok_or`). -/
def run_tick (s : IntCode) : Except String IntCode :=
  match tickCore s.machine with
  | .error e => .error e
  | .ok (.done m') => .ok { s with machine := m' }
  | .ok (.needInput t m') =>
    match s.inputs with
    | [] => .error "Ran out of input"
    | v :: rest =>
      match write_memory m' t v with
      | .error e => .error e
      | .ok m'' => .ok ⟨m'', rest⟩

/-- `n` consecutive ticks. -/
def tickN : Nat → IntCode → Except String IntCode
  | 0, s => .ok s
  | n+1, s =>
    match run_tick s with
    | .error e => .error e
    | .ok s' => tickN n s'

/-- `output_buffer.pop_front()` of `aoc_2019_07`: the drained front value,
if any, together with the machine state after draining. -/
def popFront (s : IntCode) : Option Int × IntCode :=
  match s.machine.outbuf with
  | [] => (none, s)
  | v :: rest => (some v, { s with machine := { s.machine with outbuf := rest } })

/-- `IntCode::run_to_next_output` of `aoc_2019_07`: tick while the output
buffer is empty and the machine has not terminated (a tick error is the
`unwrap()` panic), then pop the front of the output buffer.  `none` of the
outer `Option` is fuel exhaustion strictly inside the loop. -/
def run_to_next_output : Nat → IntCode → Option (Except String (Option Int × IntCode))
  | 0, s =>
    if s.machine.outbuf = [] ∧ s.machine.is_terminated = false then none
    else some (.ok (popFront s))
  | f+1, s =>
    if s.machine.outbuf = [] ∧ s.machine.is_terminated = false then
      match run_tick s with
      | .error e => some (.error e)
      | .ok s' => run_to_next_output f s'
    else some (.ok (popFront s))

/-- `Iterator::next` of `OutputStream` of `aoc_2019_07`: pop the buffer if
nonempty, otherwise `run_to_next_output`. -/
def outputStreamNext (fuel : Nat) (s : IntCode) : Option (Except String (Option Int × IntCode)) :=
  match s.machine.outbuf with
  | v :: rest => some (.ok (some v, { s with machine := { s.machine with outbuf := rest } }))
  | [] => run_to_next_output fuel s

/-- `IntCode::run_to_termination` of `aoc_2019_07`. -/
def run_to_termination : Nat → IntCode → Option (Except String IntCode)
  | 0, s => if s.machine.is_terminated then some (.ok s) else none
  | f+1, s =>
    if s.machine.is_terminated then some (.ok s)
    else
      match run_tick s with
      | .error e => some (.error e)
      | .ok s' => run_to_termination f s'

/-- An amplifier chain as wired by `run_amps` / `run_amps_part2` of
`aoc_2019_07`: each amplifier is a machine whose input iterator is a fixed
list of not-yet-consumed literal values (`once(..).chain(once(..))`)
followed, for every amplifier but the bottom one, by the output stream of
the upstream amplifier chain. -/
inductive Amp where
  | mk (m : Machine) (fixedInputs : List Int) (upstream : Option Amp)

/-- The machine of the top amplifier of a chain. -/
def Amp.machine : Amp → Machine
  | .mk m _ _ => m

/-- Which iterator operation `ampRun` is asked to perform on the top
amplifier of a chain. -/
inductive AmpOp where
  | pull
  | tick
  | outn
deriving DecidableEq, Repr

/-- The lazy pipeline driver of `aoc_2019_07`, one fuel-bounded function for
the three mutually recursive pulls:
* `pull`  — `Iterator::next` of the top amplifier's input chain: next fixed
  value if any; else the upstream chain's output stream (`outn`); at the
  bottom either end-of-iterator (`run_amps`) or, in feedback mode
  (`run_amps_part2`), pop the shared pipe, whose `unwrap()` on an empty
  pipe is the modelled panic;
* `tick`  — `IntCode::run_tick` of the top machine, pulling its input
  lazily through the chain (the value slot of the result is `none`);
* `outn`  — `OutputStream::next` / `run_to_next_output` of the top machine.
Every recursive call consumes one unit of fuel; `"out of fuel"` stands for
a diverging run, distinguishable from every program outcome. -/
def ampRun : Nat → AmpOp → Amp → List Int → Bool → Except String (Option Int × Amp × List Int)
  | 0, _, _, _, _ => .error "out of fuel"
  | f+1, op, .mk m fixedInputs upstream, pipe, feedback =>
    match op with
    | .pull =>
      match fixedInputs with
      | v :: rest => .ok (some v, .mk m rest upstream, pipe)
      | [] =>
        match upstream with
        | some up =>
          match ampRun f .outn up pipe feedback with
          | .error e => .error e
          | .ok (ov, up', pipe') => .ok (ov, .mk m [] (some up'), pipe')
        | none =>
          if feedback then
            match pipe with
            | v :: rest => .ok (some v, .mk m [] none, rest)
            | [] => .error "panic: pipe empty"
          else .ok (none, .mk m [] none, pipe)
    | .tick =>
      match tickCore m with
      | .error e => .error e
      | .ok (.done m') => .ok (none, .mk m' fixedInputs upstream, pipe)
      | .ok (.needInput t m') =>
        match ampRun f .pull (.mk m' fixedInputs upstream) pipe feedback with
        | .error e => .error e
        | .ok (none, _, _) => .error "Ran out of input"
        | .ok (some v, .mk m2 fi2 up2, pipe') =>
          match write_memory m2 t v with
          | .error e => .error e
          | .ok m3 => .ok (none, .mk m3 fi2 up2, pipe')
    | .outn =>
      match m.outbuf with
      | v :: rest => .ok (some v, .mk { m with outbuf := rest } fixedInputs upstream, pipe)
      | [] =>
        if m.is_terminated then .ok (none, .mk m fixedInputs upstream, pipe)
        else
          match ampRun f .tick (.mk m fixedInputs upstream) pipe feedback with
          | .error e => .error e
          | .ok (_, a', pipe') => ampRun f .outn a' pipe' feedback

/-- A fresh `IntCode` machine (`IntCode::init`). -/
def mkMachine (program : List Int) : Machine :=
  ⟨program, 0, [], false⟩

/-- The five-amplifier chain of `run_amps`: amplifier 0 is fed
`[phase 0, 0]`, each later amplifier its phase followed by the upstream
output stream. -/
def mkChain (program : List Int) (p0 p1 p2 p3 p4 : Int) : Amp :=
  .mk (mkMachine program) [p4] (some
    (.mk (mkMachine program) [p3] (some
      (.mk (mkMachine program) [p2] (some
        (.mk (mkMachine program) [p1] (some
          (.mk (mkMachine program) [p0, 0] none))))))))

/-- `run_amps` of `aoc_2019_07`: pull the first value of amplifier 4's
output stream (`ok_or("No output")`). -/
def run_amps (program : List Int) (phases : List Int) (fuel : Nat) : Except String Int :=
  match phases with
  | [p0, p1, p2, p3, p4] =>
    match ampRun fuel .outn (mkChain program p0 p1 p2 p3 p4) [] false with
    | .error e => .error e
    | .ok (some v, _, _) => .ok v
    | .ok (none, _, _) => .error "No output"
  | _ => .error "panic: phase_settings too short"

/-- The `.last()` drive of `run_amps_part2`: keep pulling amplifier 4's
output stream; each produced value is also pushed onto the shared feedback
pipe (the `map` closure); when the stream ends, the last value seen is the
result (`ok_or("No output")`). -/
def lastLoop : Nat → Option Int → Amp → List Int → Except String Int
  | 0, _, _, _ => .error "out of fuel"
  | f+1, acc, a, pipe =>
    match ampRun f .outn a pipe true with
    | .error e => .error e
    | .ok (none, _, _) =>
      match acc with
      | some v => .ok v
      | none => .error "No output"
    | .ok (some v, a', pipe') => lastLoop f (some v) a' (pipe' ++ [v])

/-- `run_amps_part2` of `aoc_2019_07`: same chain, amplifier 0's fixed
inputs followed by the shared feedback pipe, driven to exhaustion. -/
def run_amps_part2 (program : List Int) (phases : List Int) (fuel : Nat) : Except String Int :=
  match phases with
  | [p0, p1, p2, p3, p4] =>
    lastLoop fuel none (mkChain program p0 p1 p2 p3 p4) []
  | _ => .error "panic: phase_settings too short"

end Day07

namespace Day11

/-- Parameter mode digit of an opcode word (`0` = position, `1` = immediate,
`2` = relative). -/
inductive PMode where
  | pos
  | imm
  | rel
deriving DecidableEq, Repr

/-- `enum ParameterType` of `aoc_2019_11`: reference, literal, or relative
offset. -/
inductive Param where
  | Ref (address : Nat)
  | Value (value : Int)
  | Relative (offset : Int)
deriving DecidableEq, Repr

/-- `enum Instruction` of `aoc_2019_11`. -/
inductive Instr where
  | Add (left_op right_op into : Param)
  | Mul (left_op right_op into : Param)
  | Input (into : Param)
  | Output (param : Param)
  | JumpIfTrue (cond tgt : Param)
  | JumpIfFalse (cond tgt : Param)
  | LessThan (left_op right_op into : Param)
  | Equals (left_op right_op into : Param)
  | RelativeBase (adjust : Param)
  | Terminate
deriving DecidableEq, Repr

/-- The digit loop of `parse_op_code` of `aoc_2019_11`: digit 2 is the
relative mode; fuel dominates the digit count, see `Day05.parseModesNat`. -/
def parseModesNat (w : Int) : Nat → Nat → Except String (List PMode)
  | _, 0 => .ok []
  | 0, _ => .ok []
  | fuel+1, n =>
    match n % 10 with
    | 0 =>
      match parseModesNat w fuel (n / 10) with
      | .error e => .error e
      | .ok ms => .ok (.pos :: ms)
    | 1 =>
      match parseModesNat w fuel (n / 10) with
      | .error e => .error e
      | .ok ms => .ok (.imm :: ms)
    | 2 =>
      match parseModesNat w fuel (n / 10) with
      | .error e => .error e
      | .ok ms => .ok (.rel :: ms)
    | _ => .error ("Invalid OpCode: " ++ toString w)

/-- `IntCode::parse_op_code` of `aoc_2019_11` (`i64` word). -/
def parse_op_code (w : Int) : Except String (Nat × List PMode) :=
  let stream := w.tdiv 100
  match (if stream > 0 then parseModesNat w stream.toNat stream.toNat else .ok []) with
  | .error e => .error e
  | .ok ms => .ok (((w.tmod 100) % (2 ^ 32 : Int)).toNat, ms)

/-- `IntCode::read_parameter` of `aoc_2019_11` (mode already popped): a
relative-mode word is kept as a signed offset. -/
def readParam (mem : List Int) (ptr : Nat) (mode : PMode) (is_writing : Bool) :
    Nat × Except String Param :=
  match mem.get? ptr with
  | none => (ptr, .error "Invalid Address, address pointer out of bounds when reading parameter")
  | some v =>
    match mode with
    | .pos => (ptr + 1, .ok (.Ref (usizeCast v)))
    | .imm =>
      if is_writing then
        (ptr + 1, .error "Invalid parameter type: parameter is for a write operation")
      else (ptr + 1, .ok (.Value v))
    | .rel => (ptr + 1, .ok (.Relative v))

/-- Three-parameter read (two reads then one write target). -/
def read3W (mem : List Int) (ptr : Nat) (ms : List PMode) (ctor : Param → Param → Param → Instr) :
    Nat × Except String Instr :=
  match readParam mem ptr (ms.getD 0 .pos) false with
  | (p, .error e) => (p, .error e)
  | (p, .ok a) =>
    match readParam mem p (ms.getD 1 .pos) false with
    | (q, .error e) => (q, .error e)
    | (q, .ok b) =>
      match readParam mem q (ms.getD 2 .pos) true with
      | (s, .error e) => (s, .error e)
      | (s, .ok c) => (s, .ok (ctor a b c))

/-- Two-read-parameter read (jump instructions). -/
def read2R (mem : List Int) (ptr : Nat) (ms : List PMode) (ctor : Param → Param → Instr) :
    Nat × Except String Instr :=
  match readParam mem ptr (ms.getD 0 .pos) false with
  | (p, .error e) => (p, .error e)
  | (p, .ok a) =>
    match readParam mem p (ms.getD 1 .pos) false with
    | (q, .error e) => (q, .error e)
    | (q, .ok b) => (q, .ok (ctor a b))

/-- One-parameter read. -/
def read1 (mem : List Int) (ptr : Nat) (ms : List PMode) (is_writing : Bool)
    (ctor : Param → Instr) : Nat × Except String Instr :=
  match readParam mem ptr (ms.getD 0 .pos) is_writing with
  | (p, .error e) => (p, .error e)
  | (p, .ok a) => (p, .ok (ctor a))

/-- `IntCode::read_instruction` of `aoc_2019_11` (opcode 9 adjusts the
relative base). -/
def read_instruction (mem : List Int) (ptr : Nat) : Nat × Except String Instr :=
  match mem.get? ptr with
  | none => (ptr, .error "Invalid Address, address pointer out of bounds when reading instruction")
  | some w =>
    let p := ptr + 1
    match parse_op_code w with
    | .error e => (p, .error e)
    | .ok (oc, ms) =>
      if oc = 1 then read3W mem p ms Instr.Add
      else if oc = 2 then read3W mem p ms Instr.Mul
      else if oc = 3 then read1 mem p ms true Instr.Input
      else if oc = 4 then read1 mem p ms false Instr.Output
      else if oc = 5 then read2R mem p ms Instr.JumpIfTrue
      else if oc = 6 then read2R mem p ms Instr.JumpIfFalse
      else if oc = 7 then read3W mem p ms Instr.LessThan
      else if oc = 8 then read3W mem p ms Instr.Equals
      else if oc = 9 then read1 mem p ms false Instr.RelativeBase
      else if oc = 99 then (p, .ok .Terminate)
      else (p, .error "Invalid Opcode")

/-- The state of `struct IntCode` of `aoc_2019_11` with a list input stream:
memory, address pointer, input stream, output buffer, termination flag and
relative base. -/
structure S11 where
  memory : List Int
  ptr : Nat
  inputs : List Int
  outbuf : List Int
  is_terminated : Bool
  relative_ptr : Int
deriving DecidableEq, Repr

/-- `IntCode::resolve_parameter_value` of `aoc_2019_11` (lenient policy):
reads outside the current memory yield 0 (`unwrap_or(&0)`); a relative
parameter reads at `(relative_ptr + offset) as usize`.  The Rust function
returns a `Result` but never an error. -/
def resolve_parameter_value (s : S11) (p : Param) : Except String Int :=
  match p with
  | .Ref address => .ok ((s.memory.get? address).getD 0)
  | .Value v => .ok v
  | .Relative offset => .ok ((s.memory.get? (usizeCast (s.relative_ptr + offset))).getD 0)

/-- The store half of `IntCode::write_memory` of `aoc_2019_11` (lenient
policy), once the target address is computed: a write at or beyond the
current length first calls `resize(address + 1, 0)`.  The new-length
expression `address + 1` is `usize` arithmetic, so it wraps modulo `2^64`
(release semantics, consistent with the wrapping convention of this file;
a debug build would instead abort on the overflow): at
`address = usize::MAX` the wrapped length is 0 and the `resize` *truncates*
the memory instead of growing it (`resize` zero-fills when growing,
truncates when the new length is shorter).  Then the `get_mut` stores the
value — or, when the address is still out of bounds (possible only through
the wrap), returns the `"Invalid address reference"` error with the
already-resized memory kept, mirroring `&mut self`. -/
def writeAt (s : S11) (address : Nat) (v : Int) : S11 × Option String :=
  let mem :=
    if s.memory.length ≤ address then
      let newLen := (address + 1) % 2 ^ 64
      if s.memory.length ≤ newLen then
        s.memory ++ List.replicate (newLen - s.memory.length) 0
      else s.memory.take newLen
    else s.memory
  if address < mem.length then ({ s with memory := mem.set address v }, none)
  else ({ s with memory := mem }, some ("Invalid address reference: " ++ toString address))

/-- `IntCode::write_memory` of `aoc_2019_11`: the target address is the
reference itself, or `(relative_ptr + offset) as usize` for a relative
target; a literal target hits the `panic!("")`, modelled as a distinguished
error result.  The store itself is `writeAt` above. -/
def write_memory (s : S11) (into : Param) (v : Int) : S11 × Option String :=
  match into with
  | .Value _ => (s, some "panic: write_memory on a literal target")
  | .Ref address => writeAt s address v
  | .Relative offset => writeAt s (usizeCast (s.relative_ptr + offset)) v

/-- `IntCode::run_tick` of `aoc_2019_11` with a list input stream. -/
def run_tick (s : S11) : Except String S11 :=
  match read_instruction s.memory s.ptr with
  | (_, .error e) => .error e
  | (q, .ok instr) =>
    let s := { s with ptr := q }
    match instr with
    | .Add a b c =>
      match resolve_parameter_value s a with
      | .error e => .error e
      | .ok x =>
        match resolve_parameter_value s b with
        | .error e => .error e
        | .ok y =>
          match write_memory s c (x + y) with
          | (_, some e) => .error e
          | (s', none) => .ok s'
    | .Mul a b c =>
      match resolve_parameter_value s a with
      | .error e => .error e
      | .ok x =>
        match resolve_parameter_value s b with
        | .error e => .error e
        | .ok y =>
          match write_memory s c (x * y) with
          | (_, some e) => .error e
          | (s', none) => .ok s'
    | .Input t =>
      match s.inputs with
      | [] => .error "Ran out of input"
      | v :: rest =>
        match write_memory { s with inputs := rest } t v with
        | (_, some e) => .error e
        | (s', none) => .ok s'
    | .Output a =>
      match resolve_parameter_value s a with
      | .error e => .error e
      | .ok v => .ok { s with outbuf := s.outbuf ++ [v] }
    | .JumpIfTrue c t =>
      match resolve_parameter_value s c with
      | .error e => .error e
      | .ok v =>
        if v ≠ 0 then
          match resolve_parameter_value s t with
          | .error e => .error e
          | .ok w => .ok { s with ptr := usizeCast w }
        else .ok s
    | .JumpIfFalse c t =>
      match resolve_parameter_value s c with
      | .error e => .error e
      | .ok v =>
        if v = 0 then
          match resolve_parameter_value s t with
          | .error e => .error e
          | .ok w => .ok { s with ptr := usizeCast w }
        else .ok s
    | .LessThan a b c =>
      match resolve_parameter_value s a with
      | .error e => .error e
      | .ok x =>
        match resolve_parameter_value s b with
        | .error e => .error e
        | .ok y =>
          match write_memory s c (if x < y then 1 else 0) with
          | (_, some e) => .error e
          | (s', none) => .ok s'
    | .Equals a b c =>
      match resolve_parameter_value s a with
      | .error e => .error e
      | .ok x =>
        match resolve_parameter_value s b with
        | .error e => .error e
        | .ok y =>
          match write_memory s c (if x = y then 1 else 0) with
          | (_, some e) => .error e
          | (s', none) => .ok s'
    | .RelativeBase a =>
      match resolve_parameter_value s a with
      | .error e => .error e
      | .ok v => .ok { s with relative_ptr := s.relative_ptr + v }
    | .Terminate => .ok { s with is_terminated := true }

/-- `IntCode::run_to_termination` of `aoc_2019_11`: tick while not
terminated; an already-terminated machine returns `Ok` immediately with
nothing changed.  `none` of the outer `Option` is fuel exhaustion. -/
def run_to_termination : Nat → S11 → Option (Except String S11)
  | 0, s => if s.is_terminated then some (.ok s) else none
  | f+1, s =>
    if s.is_terminated then some (.ok s)
    else
      match run_tick s with
      | .error e => some (.error e)
      | .ok s' => run_to_termination f s'

end Day11

namespace Day02

lemma read_instruction_add (mem : List Nat) (ip l r t : Nat)
    (hw : mem.get? ip = some 1) (hl : mem.get? (ip+1) = some l)
    (hr : mem.get? (ip+2) = some r) (ht : mem.get? (ip+3) = some t) :
    read_instruction mem ip = (ip+4, .ok (.add l r t)) := by
  simp only [read_instruction, hw]
  rw [show ip + 4 - 3 = ip + 1 from by omega, show ip + 4 - 2 = ip + 2 from by omega,
      show ip + 4 - 1 = ip + 3 from by omega, hl, hr, ht]
  simp

lemma read_instruction_mul (mem : List Nat) (ip l r t : Nat)
    (hw : mem.get? ip = some 2) (hl : mem.get? (ip+1) = some l)
    (hr : mem.get? (ip+2) = some r) (ht : mem.get? (ip+3) = some t) :
    read_instruction mem ip = (ip+4, .ok (.mul l r t)) := by
  simp only [read_instruction, hw]
  rw [show ip + 4 - 3 = ip + 1 from by omega, show ip + 4 - 2 = ip + 2 from by omega,
      show ip + 4 - 1 = ip + 3 from by omega, hl, hr, ht]
  simp

lemma read_instruction_halt (mem : List Nat) (ip : Nat)
    (hw : mem.get? ip = some 99) :
    read_instruction mem ip = (ip, .ok .halt) := by
  simp only [read_instruction, hw]
  simp

/-- Refinement half of claim C1: whenever hand evaluation of an
Add/Mul/Halt program succeeds, `Memory::run` returns exactly the
hand-evaluated memory. -/
lemma handEval_refines_run : ∀ (fuel : Nat) (mem : List Nat) (ip : Nat) (out : List Nat),
    handEval fuel mem ip = some out → run fuel mem ip = some (.ok out) := by
  intro fuel
  induction fuel with
  | zero => intro mem ip out h; simp [handEval] at h
  | succ f ih =>
    intro mem ip out h
    rw [handEval] at h
    rw [run]
    cases hw : mem.get? ip with
    | none => rw [hw] at h; cases h
    | some w =>
      rw [hw] at h
      simp only [] at h
      by_cases h1 : w = 1
      · subst h1
        rw [if_pos rfl] at h
        cases hl : mem.get? (ip+1) with
        | none => rw [hl] at h; simp at h
        | some l =>
        cases hr : mem.get? (ip+2) with
        | none => rw [hl, hr] at h; simp at h
        | some r =>
        cases ht : mem.get? (ip+3) with
        | none => rw [hl, hr, ht] at h; simp at h
        | some t =>
        rw [hl, hr, ht] at h
        simp only [] at h
        cases hx : mem.get? l with
        | none => rw [hx] at h; simp at h
        | some x =>
        cases hy : mem.get? r with
        | none => rw [hx, hy] at h; simp at h
        | some y =>
        rw [hx, hy] at h
        simp only [] at h
        by_cases hlen : t < mem.length
        · rw [if_pos hlen] at h
          rw [read_instruction_add mem ip l r t hw hl hr ht]
          simp only [hx, hy, if_pos hlen]
          exact ih _ _ _ h
        · rw [if_neg hlen] at h; cases h
      · by_cases h2 : w = 2
        · subst h2
          rw [if_neg h1, if_pos rfl] at h
          cases hl : mem.get? (ip+1) with
          | none => rw [hl] at h; simp at h
          | some l =>
          cases hr : mem.get? (ip+2) with
          | none => rw [hl, hr] at h; simp at h
          | some r =>
          cases ht : mem.get? (ip+3) with
          | none => rw [hl, hr, ht] at h; simp at h
          | some t =>
          rw [hl, hr, ht] at h
          simp only [] at h
          cases hx : mem.get? l with
          | none => rw [hx] at h; simp at h
          | some x =>
          cases hy : mem.get? r with
          | none => rw [hx, hy] at h; simp at h
          | some y =>
          rw [hx, hy] at h
          simp only [] at h
          by_cases hlen : t < mem.length
          · rw [if_pos hlen] at h
            rw [read_instruction_mul mem ip l r t hw hl hr ht]
            simp only [hx, hy, if_pos hlen]
            exact ih _ _ _ h
          · rw [if_neg hlen] at h; cases h
        · by_cases h99 : w = 99
          · subst h99
            rw [if_neg h1, if_neg h2, if_pos rfl] at h
            rw [read_instruction_halt mem ip hw]
            simp only []
            cases h
            rfl
          · rw [if_neg h1, if_neg h2, if_neg h99] at h; cases h

end Day02

/-- Claim C1: for every valid Add/Mul program terminating in Halt
(captured as: every program whose hand evaluation succeeds), run-to-halt
leaves memory exactly equal to the hand evaluation; in particular the tape
`[1,9,10,3,2,3,11,0,99,30,40,50]` runs to memory
`[3500,9,10,70,2,3,11,0,99,30,40,50]` and the self-modifying tape
`[1,0,0,0,99]` runs to `[2,0,0,0,99]`, on both the `aoc_2019_02` machine
and the `aoc_2019_05` machine. -/
theorem C1_run_to_halt_matches_hand_evaluation :
    (∀ (fuel : Nat) (mem out : List Nat),
      Day02.handEval fuel mem 0 = some out → Day02.run fuel mem 0 = some (.ok out)) ∧
    Day02.run 20 [1,9,10,3,2,3,11,0,99,30,40,50] 0 =
      some (.ok [3500,9,10,70,2,3,11,0,99,30,40,50]) ∧
    Day02.run 20 [1,0,0,0,99] 0 = some (.ok [2,0,0,0,99]) ∧
    Day05.run 20 (Day05.init [1,9,10,3,2,3,11,0,99,30,40,50] []) =
      some (.ok ([3500,9,10,70,2,3,11,0,99,30,40,50], [])) ∧
    Day05.run 20 (Day05.init [1,0,0,0,99] []) = some (.ok ([2,0,0,0,99], [])) :=
  ⟨fun fuel mem out h => Day02.handEval_refines_run fuel mem 0 out h, rfl, rfl, rfl, rfl⟩

/-- Witness for C1: the self-modifying copy tape `[1,0,0,0,99]` is hand
evaluable to `[2,0,0,0,99]`, and the refinement conjunct of C1 therefore
evaluates `Memory::run` to the same memory there. -/
theorem C1_run_to_halt_matches_hand_evaluation_witness :
    Day02.handEval 20 [1,0,0,0,99] 0 = some [2,0,0,0,99] ∧
    Day02.run 20 [1,0,0,0,99] 0 = some (.ok [2,0,0,0,99]) :=
  ⟨rfl, C1_run_to_halt_matches_hand_evaluation.1 20 [1,0,0,0,99] [2,0,0,0,99] rfl⟩

lemma replicate_set_last (k : Nat) (v : Int) :
    (List.replicate (k + 1) (0 : Int)).set k v = List.replicate k 0 ++ [v] := by
  induction k with
  | zero => rfl
  | succ n ih =>
    rw [List.replicate_succ]
    show (0 : Int) :: (List.replicate (n + 1) (0 : Int)).set n v = _
    rw [ih, List.replicate_succ]
    simp

lemma set_grow_eq (l : List Int) (a : Nat) (v : Int) (h : l.length ≤ a) :
    (l ++ List.replicate (a + 1 - l.length) (0 : Int)).set a v =
      l ++ List.replicate (a - l.length) 0 ++ [v] := by
  rw [List.set_append, if_neg (by omega)]
  rw [show a + 1 - l.length = (a - l.length) + 1 from by omega, replicate_set_last]
  simp

/-- Counterexample to C2 as stated ("for every address ... a write to an
address beyond current length grows memory to include that address"):
writing at address `usize::MAX = 2^64 - 1` — beyond the length 1 of the
concrete memory `[7]` — does not grow and store; the `resize` length
`address + 1` wraps to 0, truncating the memory, and `write_memory` returns
the `"Invalid address reference"` error. -/
theorem C2_memory_bounds_policy_counterexample :
    Day11.write_memory (Day11.S11.mk [7] 0 [] [] false 0) (.Ref (2 ^ 64 - 1)) 5 =
      (Day11.S11.mk [] 0 [] [] false 0,
        some ("Invalid address reference: " ++ toString (2 ^ 64 - 1 : Nat))) := by
  rfl

/-- Claim C2 (amended): under the strict policy (`aoc_2019_05`), a
parameter-resolution read of an address outside the current memory length is
a fault; under the lenient policy (`aoc_2019_11`), any read beyond the
current length (direct or relative) returns 0, and a write beyond the
current length — at any address strictly below `usize::MAX`, where the
`resize` length `address + 1` does not wrap — grows memory to include that
address, zero-filling the gap, then stores the value (at `usize::MAX`
itself the write faults instead, see the counterexample). -/
theorem C2_memory_bounds_policy :
    (∀ (mem : List Int) (a : Nat), mem.length ≤ a →
      Day05.resolve_parameter_value mem (.Ref a) =
        .error ("Invalid address reference: " ++ toString a)) ∧
    (∀ (s : Day11.S11) (a : Nat), s.memory.length ≤ a →
      Day11.resolve_parameter_value s (.Ref a) = .ok 0) ∧
    (∀ (s : Day11.S11) (o : Int), s.memory.length ≤ usizeCast (s.relative_ptr + o) →
      Day11.resolve_parameter_value s (.Relative o) = .ok 0) ∧
    (∀ (s : Day11.S11) (a : Nat) (v : Int), s.memory.length ≤ a → a + 1 < 2 ^ 64 →
      Day11.write_memory s (.Ref a) v =
        ({ s with memory := s.memory ++ List.replicate (a - s.memory.length) 0 ++ [v] },
          none)) := by
  refine ⟨?_, ?_, ?_, ?_⟩
  · intro mem a h
    simp [Day05.resolve_parameter_value, List.getElem?_eq_none h]
  · intro s a h
    simp [Day11.resolve_parameter_value, List.getElem?_eq_none h]
  · intro s o h
    simp [Day11.resolve_parameter_value, List.getElem?_eq_none h]
  · intro s a v h hb
    simp only [Day11.write_memory, Day11.writeAt, Nat.mod_eq_of_lt hb, if_pos h,
      if_pos (Nat.le_succ_of_le h)]
    rw [if_pos (by simp; omega)]
    rw [set_grow_eq s.memory a v h]

/-- Witness for C2 at concrete inputs: a two-cell memory, reads at address 5
and a write at address 4. -/
theorem C2_memory_bounds_policy_witness :
    Day05.resolve_parameter_value [7, 8] (.Ref 5) =
      .error ("Invalid address reference: " ++ toString (5 : Nat)) ∧
    Day11.resolve_parameter_value (Day11.S11.mk [7, 8] 0 [] [] false 0) (.Ref 5) = .ok 0 ∧
    Day11.resolve_parameter_value (Day11.S11.mk [7, 8] 0 [] [] false 1) (.Relative 4) = .ok 0 ∧
    Day11.write_memory (Day11.S11.mk [7, 8] 0 [] [] false 0) (.Ref 4) 9 =
      (Day11.S11.mk ([7, 8] ++ List.replicate 2 0 ++ [9]) 0 [] [] false 0, none) := by
  refine ⟨C2_memory_bounds_policy.1 [7, 8] 5 (by decide),
          C2_memory_bounds_policy.2.1 _ 5 (by decide),
          C2_memory_bounds_policy.2.2.1 _ 4 (by decide),
          C2_memory_bounds_policy.2.2.2 _ 4 9 (by decide) (by decide)⟩

/-- Claim C3: chaining five machines on the amplifier-controller test
program with phase setting `[4,3,2,1,0]` and initial input 0 yields final
signal 43210; feedback-looped chaining on the feedback-capable test program
with phase setting `[9,8,7,6,5]` yields 139629729. -/
theorem C3_pipeline_composition :
    Day07.run_amps [3,15,3,16,1002,16,10,16,1,16,15,15,4,15,99,0,0]
      [4,3,2,1,0] 3000 = .ok 43210 ∧
    Day07.run_amps_part2
      [3,26,1001,26,-4,26,3,27,1002,27,2,27,1,27,26,27,4,27,1001,28,-1,28,1005,28,6,99,0,0,5]
      [9,8,7,6,5] 3000 = .ok 139629729 :=
  ⟨rfl, rfl⟩

/-- Claim C8: decoding the instruction at a given memory and instruction
pointer twice — two machine states that agree on memory and pointer but may
differ elsewhere — yields identical `Instruction` values and the same
resulting pointer position (the decode result is the pair of both). -/
theorem C8_decode_idempotent :
    ∀ (s t : Day05.S5), s.memory = t.memory → s.ptr = t.ptr →
      Day05.read_instruction s.memory s.ptr = Day05.read_instruction t.memory t.ptr := by
  intro s t h1 h2
  rw [h1, h2]

/-- Witness for C8: two states sharing tape `[1101,2,3,0,99]` and pointer 0
but with different input/output components decode identically. -/
theorem C8_decode_idempotent_witness :
    Day05.read_instruction (Day05.S5.mk [1101,2,3,0,99] 0 [7] []).memory
        (Day05.S5.mk [1101,2,3,0,99] 0 [7] []).ptr =
      Day05.read_instruction (Day05.S5.mk [1101,2,3,0,99] 0 [] [9]).memory
        (Day05.S5.mk [1101,2,3,0,99] 0 [] [9]).ptr :=
  C8_decode_idempotent (Day05.S5.mk [1101,2,3,0,99] 0 [7] [])
    (Day05.S5.mk [1101,2,3,0,99] 0 [] [9]) rfl rfl

/-- Claim C7: input exhaustion is a hard fault in every machine generation:
if the next instruction decodes to `Input` and the input sequence is empty,
the tick aborts with the `"Ran out of input"` fault, in the strict
(`aoc_2019_07`) and the lenient (`aoc_2019_11`) generations alike. -/
theorem C7_input_exhaustion_faults :
    (∀ (s : Day07.IntCode) (q : Nat) (p : Day07.Param),
      Day07.read_instruction s.machine.memory s.machine.ptr = (q, .ok (.Input p)) →
      s.inputs = [] → Day07.run_tick s = .error "Ran out of input") ∧
    (∀ (s : Day11.S11) (q : Nat) (p : Day11.Param),
      Day11.read_instruction s.memory s.ptr = (q, .ok (.Input p)) →
      s.inputs = [] → Day11.run_tick s = .error "Ran out of input") := by
  constructor
  · intro s q p hdec hin
    simp only [Day07.run_tick, Day07.tickCore, hdec, hin]
  · intro s q p hdec hin
    simp only [Day11.run_tick, hdec, hin]

/-- Witness for C7: the tape `[3,0,99]` with an empty input stream faults on
both machines. -/
theorem C7_input_exhaustion_faults_witness :
    Day07.run_tick (Day07.IntCode.mk (Day07.Machine.mk [3, 0, 99] 0 [] false) []) =
      .error "Ran out of input" ∧
    Day11.run_tick (Day11.S11.mk [3, 0, 99] 0 [] [] false 0) =
      .error "Ran out of input" :=
  ⟨C7_input_exhaustion_faults.1 _ 2 (.Ref 0) (by rfl) rfl,
   C7_input_exhaustion_faults.2 _ 2 (.Ref 0) (by rfl) rfl⟩

lemma writeAt_snd_none (s : Day11.S11) (a : Nat) (v : Int) (hb : a + 1 < 2 ^ 64) :
    (Day11.writeAt s a v).2 = none := by
  by_cases h : s.memory.length ≤ a
  · simp only [Day11.writeAt, Nat.mod_eq_of_lt hb, if_pos h, if_pos (Nat.le_succ_of_le h)]
    rw [if_pos (by simp; omega)]
  · simp only [Day11.writeAt, if_neg h]
    rw [if_pos (by omega)]

/-- Counterexample to C10 as stated: the word `-1` in position mode decodes
(with `is_writing = true`) to the write target `Ref(usize::MAX)` — a
decoder-produced target whose resolved address is non-negative — yet
`write_memory` on it does not succeed: the `resize` length wraps to 0 and
the `"Invalid address reference"` error branch is reached. -/
theorem C10_write_total_counterexample :
    Day11.readParam [3, -1] 1 .pos true = (2, .ok (.Ref (2 ^ 64 - 1))) ∧
    (Day11.write_memory (Day11.S11.mk [7] 0 [] [] false 0) (.Ref (2 ^ 64 - 1)) 5).2 =
      some ("Invalid address reference: " ++ toString (2 ^ 64 - 1 : Nat)) := by
  exact ⟨rfl, rfl⟩

/-- Claim C10 (amended): in the lenient generation, a write-target parameter
returned by `read_parameter` with `is_writing = true` is never a `Value`
parameter, and for such a parameter whose resolved address is non-negative
and strictly below `usize::MAX` — so that the `resize` length `address + 1`
does not wrap — `write_memory` succeeds: the resize puts the address in
bounds, and neither the `"Invalid address reference"` error branch nor the
panic branch is reached (at resolved address exactly `usize::MAX` the error
branch is reached instead, see the counterexample). -/
theorem C10_write_total_on_decoded_targets :
    ∀ (mem : List Int) (ptr : Nat) (mode : Day11.PMode) (q : Nat) (p : Day11.Param),
      Day11.readParam mem ptr mode true = (q, .ok p) →
      (∀ x, p ≠ .Value x) ∧
      (∀ (s : Day11.S11) (v : Int),
        (∀ a, p = .Ref a → a + 1 < 2 ^ 64) →
        (∀ o, p = .Relative o →
          0 ≤ s.relative_ptr + o ∧ usizeCast (s.relative_ptr + o) + 1 < 2 ^ 64) →
        (Day11.write_memory s p v).2 = none) := by
  intro mem ptr mode q p hdec
  unfold Day11.readParam at hdec
  cases mode with
  | pos =>
    cases hm : mem.get? ptr with
    | none => rw [hm] at hdec; simp at hdec
    | some w =>
      rw [hm] at hdec
      simp only [Prod.mk.injEq, Except.ok.injEq] at hdec
      obtain ⟨hq, hp⟩ := hdec
      subst hp
      constructor
      · intro x hx; cases hx
      · intro s v hr _
        simp only [Day11.write_memory]
        exact writeAt_snd_none s (usizeCast w) v (hr (usizeCast w) rfl)
  | imm =>
    cases hm : mem.get? ptr with
    | none => rw [hm] at hdec; simp at hdec
    | some w => rw [hm] at hdec; simp at hdec
  | rel =>
    cases hm : mem.get? ptr with
    | none => rw [hm] at hdec; simp at hdec
    | some w =>
      rw [hm] at hdec
      simp only [Prod.mk.injEq, Except.ok.injEq] at hdec
      obtain ⟨hq, hp⟩ := hdec
      subst hp
      constructor
      · intro x hx; cases hx
      · intro s v _ ho
        simp only [Day11.write_memory]
        exact writeAt_snd_none s (usizeCast (s.relative_ptr + w)) v (ho w rfl).2

/-- Witness for C10: the relative write target decoded from tape `[3,5]` at
pointer 1 writes successfully into a one-cell memory. -/
theorem C10_write_total_on_decoded_targets_witness :
    (Day11.write_memory (Day11.S11.mk [9] 0 [] [] false 0) (.Relative 5) 7).2 = none :=
  (C10_write_total_on_decoded_targets [3, 5] 1 .rel 2 (.Relative 5) (by rfl)).2
    (Day11.S11.mk [9] 0 [] [] false 0) 7
    (fun a ha => by cases ha)
    (fun o ho => by injection ho with h; subst h; exact ⟨by decide, by decide⟩)

lemma resolve11_ok (s : Day11.S11) (p : Day11.Param) :
    ∃ x, Day11.resolve_parameter_value s p = .ok x := by
  cases p <;> exact ⟨_, rfl⟩

lemma write_memory_fst_term (s : Day11.S11) (p : Day11.Param) (v : Int) :
    (Day11.write_memory s p v).1.is_terminated = s.is_terminated := by
  cases p <;> simp only [Day11.write_memory, Day11.writeAt] <;>
    (try split) <;> (try split) <;> (try split) <;> rfl

/-- Claim C9: once the `aoc_2019_11` machine is Halted (`is_terminated`),
a further `run_to_termination` call is a no-op returning `Ok` with the
state — memory, instruction pointer, relative base and output buffer —
unchanged; and a successful tick ends in the Halted state only when the
machine was already Halted or the decoded instruction was the Halt
opcode. -/
theorem C9_halted_is_terminal :
    (∀ (fuel : Nat) (s : Day11.S11), s.is_terminated = true →
      Day11.run_to_termination fuel s = some (.ok s)) ∧
    (∀ (s s' : Day11.S11), Day11.run_tick s = .ok s' → s'.is_terminated = true →
      s.is_terminated = true ∨ (Day11.read_instruction s.memory s.ptr).2 = .ok .Terminate) := by
  constructor
  · intro fuel s h
    cases fuel with
    | zero => simp [Day11.run_to_termination, h]
    | succ f => simp [Day11.run_to_termination, h]
  · intro s s' htick hterm
    unfold Day11.run_tick at htick
    cases hd : Day11.read_instruction s.memory s.ptr with
    | mk q r =>
      rw [hd] at htick
      cases r with
      | error e => exact absurd htick (by simp)
      | ok instr =>
        cases instr with
        | Terminate => exact Or.inr rfl
        | Add a b c =>
          left
          obtain ⟨x, hx⟩ := resolve11_ok { s with ptr := q } a
          obtain ⟨y, hy⟩ := resolve11_ok { s with ptr := q } b
          simp only [hx, hy] at htick
          cases hw : Day11.write_memory { s with ptr := q } c (x + y) with
          | mk s2 oe =>
            rw [hw] at htick
            cases oe with
            | some e => exact absurd htick (by simp)
            | none =>
              simp only [] at htick
              injection htick with h2
              subst h2
              have hpres := write_memory_fst_term { s with ptr := q } c (x + y)
              rw [hw] at hpres
              rw [hpres] at hterm
              exact hterm
        | Mul a b c =>
          left
          obtain ⟨x, hx⟩ := resolve11_ok { s with ptr := q } a
          obtain ⟨y, hy⟩ := resolve11_ok { s with ptr := q } b
          simp only [hx, hy] at htick
          cases hw : Day11.write_memory { s with ptr := q } c (x * y) with
          | mk s2 oe =>
            rw [hw] at htick
            cases oe with
            | some e => exact absurd htick (by simp)
            | none =>
              simp only [] at htick
              injection htick with h2
              subst h2
              have hpres := write_memory_fst_term { s with ptr := q } c (x * y)
              rw [hw] at hpres
              rw [hpres] at hterm
              exact hterm
        | LessThan a b c =>
          left
          obtain ⟨x, hx⟩ := resolve11_ok { s with ptr := q } a
          obtain ⟨y, hy⟩ := resolve11_ok { s with ptr := q } b
          simp only [hx, hy] at htick
          cases hw : Day11.write_memory { s with ptr := q } c (if x < y then 1 else 0) with
          | mk s2 oe =>
            rw [hw] at htick
            cases oe with
            | some e => exact absurd htick (by simp)
            | none =>
              simp only [] at htick
              injection htick with h2
              subst h2
              have hpres := write_memory_fst_term { s with ptr := q } c (if x < y then 1 else 0)
              rw [hw] at hpres
              rw [hpres] at hterm
              exact hterm
        | Equals a b c =>
          left
          obtain ⟨x, hx⟩ := resolve11_ok { s with ptr := q } a
          obtain ⟨y, hy⟩ := resolve11_ok { s with ptr := q } b
          simp only [hx, hy] at htick
          cases hw : Day11.write_memory { s with ptr := q } c (if x = y then 1 else 0) with
          | mk s2 oe =>
            rw [hw] at htick
            cases oe with
            | some e => exact absurd htick (by simp)
            | none =>
              simp only [] at htick
              injection htick with h2
              subst h2
              have hpres := write_memory_fst_term { s with ptr := q } c (if x = y then 1 else 0)
              rw [hw] at hpres
              rw [hpres] at hterm
              exact hterm
        | Input t =>
          left
          simp only [] at htick
          cases hin : s.inputs with
          | nil => rw [hin] at htick; exact absurd htick (by simp)
          | cons v rest =>
            rw [hin] at htick
            simp only [] at htick
            cases hw : Day11.write_memory { s with ptr := q, inputs := rest } t v with
            | mk s2 oe =>
              rw [hw] at htick
              cases oe with
              | some e => exact absurd htick (by simp)
              | none =>
                simp only [] at htick
                injection htick with h2
                subst h2
                have hpres := write_memory_fst_term { s with ptr := q, inputs := rest } t v
                rw [hw] at hpres
                rw [hpres] at hterm
                exact hterm
        | Output a =>
          left
          obtain ⟨v, hv⟩ := resolve11_ok { s with ptr := q } a
          simp only [hv] at htick
          injection htick with h2
          subst h2
          exact hterm
        | JumpIfTrue c t =>
          left
          obtain ⟨v, hv⟩ := resolve11_ok { s with ptr := q } c
          simp only [hv] at htick
          split at htick
          · obtain ⟨w, hw2⟩ := resolve11_ok { s with ptr := q } t
            simp only [hw2] at htick
            injection htick with h2
            subst h2
            exact hterm
          · injection htick with h2
            subst h2
            exact hterm
        | JumpIfFalse c t =>
          left
          obtain ⟨v, hv⟩ := resolve11_ok { s with ptr := q } c
          simp only [hv] at htick
          split at htick
          · obtain ⟨w, hw2⟩ := resolve11_ok { s with ptr := q } t
            simp only [hw2] at htick
            injection htick with h2
            subst h2
            exact hterm
          · injection htick with h2
            subst h2
            exact hterm
        | RelativeBase a =>
          left
          obtain ⟨v, hv⟩ := resolve11_ok { s with ptr := q } a
          simp only [hv] at htick
          injection htick with h2
          subst h2
          exact hterm

/-- Witness for C9: a halted machine on tape `[99]` survives
`run_to_termination` unchanged, and ticking the unhalted machine into the
Halted state decodes the Halt opcode. -/
theorem C9_halted_is_terminal_witness :
    Day11.run_to_termination 5 (Day11.S11.mk [99] 0 [] [] true 0) =
      some (.ok (Day11.S11.mk [99] 0 [] [] true 0)) ∧
    ((Day11.S11.mk [99] 0 [] [] false 0).is_terminated = true ∨
      (Day11.read_instruction (Day11.S11.mk [99] 0 [] [] false 0).memory
        (Day11.S11.mk [99] 0 [] [] false 0).ptr).2 = .ok .Terminate) :=
  ⟨C9_halted_is_terminal.1 5 (Day11.S11.mk [99] 0 [] [] true 0) rfl,
   C9_halted_is_terminal.2 (Day11.S11.mk [99] 0 [] [] false 0)
     (Day11.S11.mk [99] 1 [] [] true 0) (by rfl) rfl⟩

lemma readParam_imm_write (mem : List Int) (q : Nat) :
    ∃ e, (Day05.readParam mem q .imm true).2 = .error e := by
  unfold Day05.readParam
  cases h : mem.get? q with
  | none => exact ⟨_, rfl⟩
  | some v => exact ⟨_, rfl⟩

lemma read3W_imm_target (mem : List Int) (ptr : Nat) (ms : List Day05.PMode)
    (ctor : Day05.Param → Day05.Param → Day05.Param → Day05.Instr)
    (h : ms.getD 2 .pos = .imm) :
    ∃ e, (Day05.read3W mem ptr ms ctor).2 = .error e := by
  unfold Day05.read3W
  cases h1 : Day05.readParam mem ptr (ms.getD 0 .pos) false with
  | mk p r1 =>
    cases r1 with
    | error e => exact ⟨e, rfl⟩
    | ok a =>
      simp only []
      cases h2 : Day05.readParam mem p (ms.getD 1 .pos) false with
      | mk q2 r2 =>
        cases r2 with
        | error e => exact ⟨e, rfl⟩
        | ok b =>
          simp only []
          rw [h]
          obtain ⟨e, he⟩ := readParam_imm_write mem q2
          cases h3 : Day05.readParam mem q2 .imm true with
          | mk s3 r3 =>
            rw [h3] at he
            have hr : r3 = .error e := he
            subst hr
            exact ⟨e, rfl⟩

lemma read1W_imm_target (mem : List Int) (ptr : Nat) (ms : List Day05.PMode)
    (ctor : Day05.Param → Day05.Instr)
    (h : ms.getD 0 .pos = .imm) :
    ∃ e, (Day05.read1 mem ptr ms true ctor).2 = .error e := by
  unfold Day05.read1
  rw [h]
  obtain ⟨e, he⟩ := readParam_imm_write mem ptr
  cases h3 : Day05.readParam mem ptr .imm true with
  | mk p r3 =>
    rw [h3] at he
    have hr : r3 = .error e := he
    subst hr
    exact ⟨e, rfl⟩

lemma read_instruction_imm_write_fault (mem : List Int) (ptr : Nat) (w : Int)
    (oc : Nat) (ms : List Day05.PMode)
    (hw : mem.get? ptr = some w) (hp : Day05.parse_op_code w = .ok (oc, ms))
    (hcase : ((oc = 1 ∨ oc = 2 ∨ oc = 7 ∨ oc = 8) ∧ ms.getD 2 .pos = .imm) ∨
      (oc = 3 ∧ ms.getD 0 .pos = .imm)) :
    ∃ e, (Day05.read_instruction mem ptr).2 = .error e := by
  simp only [Day05.read_instruction, hw, hp]
  rcases hcase with ⟨hoc, him⟩ | ⟨hoc, him⟩
  · rcases hoc with h1 | h2 | h7 | h8
    · subst h1
      rw [if_pos rfl]
      exact read3W_imm_target mem (ptr+1) ms Day05.Instr.Add him
    · subst h2
      rw [if_neg (by decide), if_pos rfl]
      exact read3W_imm_target mem (ptr+1) ms Day05.Instr.Mul him
    · subst h7
      rw [if_neg (by decide), if_neg (by decide), if_neg (by decide), if_neg (by decide),
          if_neg (by decide), if_neg (by decide), if_pos rfl]
      exact read3W_imm_target mem (ptr+1) ms Day05.Instr.LessThan him
    · subst h8
      rw [if_neg (by decide), if_neg (by decide), if_neg (by decide), if_neg (by decide),
          if_neg (by decide), if_neg (by decide), if_neg (by decide), if_pos rfl]
      exact read3W_imm_target mem (ptr+1) ms Day05.Instr.Equals him
  · subst hoc
    rw [if_neg (by decide), if_neg (by decide), if_pos rfl]
    exact read1W_imm_target mem (ptr+1) ms Day05.Instr.Input him

lemma step_decode_fault (s : Day05.S5) (q : Nat) (e : String)
    (h : Day05.read_instruction s.memory s.ptr = (q, .error e)) :
    Day05.step s = ({ s with ptr := q }, .fault e) := by
  unfold Day05.step
  rw [h]

/-- Claim C5: whenever the next instruction of the `aoc_2019_05` machine
carries an Immediate-mode write-target parameter (an opcode with a write
operand whose corresponding mode digit is Immediate), executing that
instruction faults — decoding returns an error, the write target never
decodes as Immediate — and the machine's memory is exactly what it was
before the instruction: no write occurs. -/
theorem C5_immediate_write_target_faults :
    ∀ (s : Day05.S5) (w : Int) (oc : Nat) (ms : List Day05.PMode),
      s.memory.get? s.ptr = some w →
      Day05.parse_op_code w = .ok (oc, ms) →
      (((oc = 1 ∨ oc = 2 ∨ oc = 7 ∨ oc = 8) ∧ ms.getD 2 .pos = .imm) ∨
        (oc = 3 ∧ ms.getD 0 .pos = .imm)) →
      ∃ e, (Day05.read_instruction s.memory s.ptr).2 = .error e ∧
        (Day05.step s).2 = .fault e ∧ (Day05.step s).1.memory = s.memory := by
  intro s w oc ms hw hp hcase
  obtain ⟨e, he⟩ := read_instruction_imm_write_fault s.memory s.ptr w oc ms hw hp hcase
  cases hd : Day05.read_instruction s.memory s.ptr with
  | mk q r =>
    rw [hd] at he
    have hr : r = .error e := he
    subst hr
    refine ⟨e, rfl, ?_, ?_⟩
    · rw [step_decode_fault s q e hd]
    · rw [step_decode_fault s q e hd]

/-- Witness for C5: the tape `[11101,2,3,0,99]` — an Add whose three mode
digits are all Immediate — faults without touching memory. -/
theorem C5_immediate_write_target_faults_witness :
    ∃ e, (Day05.read_instruction [11101, 2, 3, 0, 99] 0).2 = .error e ∧
      (Day05.step (Day05.S5.mk [11101, 2, 3, 0, 99] 0 [] [])).2 = .fault e ∧
      (Day05.step (Day05.S5.mk [11101, 2, 3, 0, 99] 0 [] [])).1.memory =
        [11101, 2, 3, 0, 99] :=
  C5_immediate_write_target_faults (Day05.S5.mk [11101, 2, 3, 0, 99] 0 [] [])
    11101 1 [.imm, .imm, .imm] rfl (by rfl) (Or.inl ⟨Or.inl rfl, rfl⟩)

lemma popFront_spec (s : Day07.IntCode)
    (hc : ¬(s.machine.outbuf = [] ∧ s.machine.is_terminated = false)) :
    (∃ v rest, s.machine.outbuf = v :: rest ∧
      Day07.popFront s = (some v, { s with machine := { s.machine with outbuf := rest } })) ∨
    (s.machine.outbuf = [] ∧ s.machine.is_terminated = true ∧
      Day07.popFront s = (none, s)) := by
  cases ho : s.machine.outbuf with
  | cons v rest =>
    left
    refine ⟨v, rest, rfl, ?_⟩
    unfold Day07.popFront
    rw [ho]
  | nil =>
    right
    refine ⟨rfl, ?_, ?_⟩
    · cases ht : s.machine.is_terminated with
      | true => rfl
      | false => exact absurd ⟨ho, ht⟩ hc
    · unfold Day07.popFront
      rw [ho]

/-- Claim C4: `run_to_next_output` behaves as the `OutputStream` iterator
(`next` equals it on every state), and whenever it returns a result it has
ticked exactly as often as needed: there is an `n` such that all states
before the `n`-th tick had an empty output buffer and were not terminated,
and the result either drains the front of the `n`-th state's now-nonempty
buffer (performing no further ticks) or reports exhaustion on a halted
machine with an empty buffer. -/
theorem C4_produce_next_output :
    (∀ (fuel : Nat) (s : Day07.IntCode),
      Day07.outputStreamNext fuel s = Day07.run_to_next_output fuel s) ∧
    (∀ (fuel : Nat) (s : Day07.IntCode) (r : Option Int × Day07.IntCode),
      Day07.run_to_next_output fuel s = some (.ok r) →
      ∃ (n : Nat) (sn : Day07.IntCode),
        Day07.tickN n s = .ok sn ∧
        (∀ m, m < n → ∀ sm, Day07.tickN m s = .ok sm →
          sm.machine.outbuf = [] ∧ sm.machine.is_terminated = false) ∧
        ((∃ v rest, sn.machine.outbuf = v :: rest ∧
            r = (some v, { sn with machine := { sn.machine with outbuf := rest } })) ∨
          (sn.machine.outbuf = [] ∧ sn.machine.is_terminated = true ∧ r = (none, sn)))) := by
  constructor
  · intro fuel s
    unfold Day07.outputStreamNext
    cases ho : s.machine.outbuf with
    | nil => rfl
    | cons v rest =>
      have hcond : ¬(s.machine.outbuf = [] ∧ s.machine.is_terminated = false) := by
        rw [ho]; simp
      have hpop : Day07.popFront s =
          (some v, { s with machine := { s.machine with outbuf := rest } }) := by
        unfold Day07.popFront
        rw [ho]
      cases fuel with
      | zero => rw [Day07.run_to_next_output, if_neg hcond, hpop]
      | succ f => rw [Day07.run_to_next_output, if_neg hcond, hpop]
  · intro fuel
    induction fuel with
    | zero =>
      intro s r h
      rw [Day07.run_to_next_output] at h
      by_cases hc : s.machine.outbuf = [] ∧ s.machine.is_terminated = false
      · rw [if_pos hc] at h; cases h
      · rw [if_neg hc] at h
        injection h with h1
        injection h1 with h2
        rcases popFront_spec s hc with ⟨v, rest, ho, hp⟩ | ⟨ho, ht2, hp⟩
        · exact ⟨0, s, rfl, fun m hm => absurd hm (Nat.not_lt_zero m),
            Or.inl ⟨v, rest, ho, by rw [← h2]; exact hp⟩⟩
        · exact ⟨0, s, rfl, fun m hm => absurd hm (Nat.not_lt_zero m),
            Or.inr ⟨ho, ht2, by rw [← h2]; exact hp⟩⟩
    | succ f ih =>
      intro s r h
      rw [Day07.run_to_next_output] at h
      by_cases hc : s.machine.outbuf = [] ∧ s.machine.is_terminated = false
      · rw [if_pos hc] at h
        cases htick : Day07.run_tick s with
        | error e => rw [htick] at h; simp at h
        | ok s' =>
          rw [htick] at h
          try simp only [] at h
          obtain ⟨n, sn, htn, hmin, hres⟩ := ih s' r h
          refine ⟨n + 1, sn, ?_, ?_, hres⟩
          · simp only [Day07.tickN, htick]
            exact htn
          · intro m hm sm htm
            cases m with
            | zero =>
              simp only [Day07.tickN] at htm
              injection htm with hsm
              subst hsm
              exact ⟨hc.1, hc.2⟩
            | succ k =>
              simp only [Day07.tickN, htick] at htm
              exact hmin k (by omega) sm htm
      · rw [if_neg hc] at h
        injection h with h1
        injection h1 with h2
        rcases popFront_spec s hc with ⟨v, rest, ho, hp⟩ | ⟨ho, ht2, hp⟩
        · exact ⟨0, s, rfl, fun m hm => absurd hm (Nat.not_lt_zero m),
            Or.inl ⟨v, rest, ho, by rw [← h2]; exact hp⟩⟩
        · exact ⟨0, s, rfl, fun m hm => absurd hm (Nat.not_lt_zero m),
            Or.inr ⟨ho, ht2, by rw [← h2]; exact hp⟩⟩

/-- Witness for C4: the tape `[104,7,99]` (output the immediate 7, halt)
produces the value 7 after exactly one tick with the drained state. -/
theorem C4_produce_next_output_witness :
    ∃ (n : Nat) (sn : Day07.IntCode),
      Day07.tickN n (Day07.IntCode.mk (Day07.Machine.mk [104, 7, 99] 0 [] false) []) = .ok sn ∧
      (∀ m, m < n → ∀ sm,
        Day07.tickN m (Day07.IntCode.mk (Day07.Machine.mk [104, 7, 99] 0 [] false) []) = .ok sm →
        sm.machine.outbuf = [] ∧ sm.machine.is_terminated = false) ∧
      ((∃ v rest, sn.machine.outbuf = v :: rest ∧
          ((some (7 : Int), Day07.IntCode.mk (Day07.Machine.mk [104, 7, 99] 2 [] false) []) :
              Option Int × Day07.IntCode) =
            (some v, { sn with machine := { sn.machine with outbuf := rest } })) ∨
        (sn.machine.outbuf = [] ∧ sn.machine.is_terminated = true ∧
          ((some (7 : Int), Day07.IntCode.mk (Day07.Machine.mk [104, 7, 99] 2 [] false) []) :
              Option Int × Day07.IntCode) = (none, sn))) :=
  C4_produce_next_output.2 5 (Day07.IntCode.mk (Day07.Machine.mk [104, 7, 99] 0 [] false) [])
    (some 7, Day07.IntCode.mk (Day07.Machine.mk [104, 7, 99] 2 [] false) []) (by rfl)

lemma run5_mono (f : Nat) :
    ∀ (s : Day05.S5) (r : Except String (List Int × List Int)),
      Day05.run f s = some r → Day05.run (f + 1) s = some r := by
  induction f with
  | zero => intro s r h; rw [Day05.run] at h; cases h
  | succ g ih =>
    intro s r h
    rw [Day05.run] at h ⊢
    cases hst : Day05.step s with
    | mk s' o =>
      rw [hst] at h
      cases o with
      | next =>
        try simp only [] at h ⊢
        exact ih s' r h
      | halted => exact h
      | fault e => exact h

lemma run5_mono_le (f g : Nat) (s : Day05.S5) (r : Except String (List Int × List Int))
    (hfg : f ≤ g) (h : Day05.run f s = some r) : Day05.run g s = some r := by
  induction hfg with
  | refl => exact h
  | step _ ih => exact run5_mono _ _ _ ih

lemma runsTo_det (s : Day05.S5) (r1 r2 : Except String (List Int × List Int))
    (h1 : Day05.RunsTo s r1) (h2 : Day05.RunsTo s r2) : r1 = r2 := by
  obtain ⟨f1, e1⟩ := h1
  obtain ⟨f2, e2⟩ := h2
  rcases le_total f1 f2 with hle | hle
  · have h3 := run5_mono_le f1 f2 s r1 hle e1
    have h4 : some r1 = some r2 := by rw [← h3, e2]
    exact Option.some.inj h4
  · have h3 := run5_mono_le f2 f1 s r2 hle e2
    have h4 : some r1 = some r2 := by rw [← e1, h3]
    exact Option.some.inj h4

/-- Counterexample to C6 as stated: with the two-element input `[42, 58]`
the program `[3,0,4,0,99]` runs to halt with output `[42]`, and no
run-to-halt result has output `[42, 58]` — the output sequence is not
equal to the input sequence element for element. -/
theorem C6_roundtrip_counterexample :
    Day05.RunsTo (Day05.init [3, 0, 4, 0, 99] [42, 58]) (.ok ([42, 0, 4, 0, 99], [42])) ∧
    ¬ ∃ m, Day05.RunsTo (Day05.init [3, 0, 4, 0, 99] [42, 58]) (.ok (m, [42, 58])) := by
  constructor
  · exact ⟨20, rfl⟩
  · rintro ⟨m, hm⟩
    have hd := runsTo_det (Day05.init [3, 0, 4, 0, 99] [42, 58])
      (.ok ([42, 0, 4, 0, 99], [42])) (.ok (m, [42, 58])) ⟨20, rfl⟩ hm
    simp at hd

/-- Claim C6 (amended): for every single-element input sequence `[x]`,
running `[3,0,4,0,99]` produces the output sequence `[x]`, equal to the
input element for element (the program halts after echoing one value, so
longer inputs are echoed only in their first element). -/
theorem C6_roundtrip_single_input :
    ∀ x : Int, Day05.RunsTo (Day05.init [3, 0, 4, 0, 99] [x])
      (.ok ([x, 0, 4, 0, 99], [x])) :=
  fun x => ⟨20, rfl⟩
